import Mathlib

/-!
Shallow embedding of the Event Registration & Ticketing System
(Go, GORM/PostgreSQL).  The datastore state is modelled explicitly; each
Go service/repository/handler function of interest becomes a pure Lean
function on that state.  SQL `UPDATE ... WHERE` statements are modelled
row-by-row together with their rows-affected count, and GORM soft-delete
semantics are modelled by keeping only live (non-deleted) registration
rows in the state.
-/

namespace EventAPI

/-- The closed set of business errors declared in `models` (part_002):
`ErrAlreadyRegistered`, `ErrEventFull`, `ErrEventNotFound`,
`ErrUserNotFound`, `ErrUnauthorized`, `ErrInvalidInput`. -/
inductive AppError where
  | alreadyRegistered
  | eventFull
  | eventNotFound
  | userNotFound
  | unauthorized
  | invalidInput
  deriving Repr, DecidableEq

/-- `models.Event`: the fields the registration protocol reads or writes
(`ID`, `Capacity`, `AvailableSeats`); Go `int` is modelled as `Int`. -/
structure Event where
  id : Nat
  capacity : Int
  availableSeats : Int
  deriving Repr, DecidableEq

/-- `models.Registration`: identity plus the `(user_id, event_id)` pair. -/
structure Registration where
  id : Nat
  userId : Nat
  eventId : Nat
  deriving Repr, DecidableEq

/-- The datastore: existing user ids, the `events` table, the live
(non-soft-deleted) rows of the `registrations` table, and the next
primary key GORM will assign to an inserted registration. -/
structure DB where
  userIds : List Nat
  events : List Event
  registrations : List Registration
  nextRegId : Nat
  deriving Repr, DecidableEq

/-- `userRepo.FindByID` reduced to existence: does the user row exist. -/
def DB.findUser (db : DB) (userId : Nat) : Bool :=
  db.userIds.contains userId

/-- `SELECT * FROM events WHERE id = ?` (both `FindByID` and the
`FindByIDForUpdate` row-locked read return the same row). -/
def DB.findEvent (db : DB) (eventId : Nat) : Option Event :=
  db.events.find? (fun e => e.id == eventId)

/-- `SELECT * FROM registrations WHERE user_id = ? AND event_id = ?`
over live rows (GORM excludes soft-deleted rows). -/
def DB.findRegistration (db : DB) (userId eventId : Nat) : Option Registration :=
  db.registrations.find? (fun r => r.userId == userId && r.eventId == eventId)

/-- Number of live registrations for an event. -/
def DB.liveRegCount (db : DB) (eventId : Nat) : Nat :=
  db.registrations.countP (fun r => r.eventId == eventId)

/-- An SQL `UPDATE events SET ... WHERE p` : applies `u` to every row
satisfying `p` and returns the new table together with `RowsAffected`. -/
def sqlUpdateEvents (p : Event → Bool) (u : Event → Event) :
    List Event → List Event × Nat
  | [] => ([], 0)
  | e :: rest =>
    let r := sqlUpdateEvents p u rest
    if p e then (u e :: r.1, r.2 + 1) else (e :: r.1, r.2)

/-- `UPDATE events SET available_seats = available_seats - 1
WHERE id = ? AND available_seats > 0` (the conditional decrement used
both by `eventRepository.DecreaseAvailableSeats` and inline in
`RegisterForEvent`), with its rows-affected count. -/
def decrementSeatsWherePositive (db : DB) (eventId : Nat) : DB × Nat :=
  let r := sqlUpdateEvents
    (fun e => e.id == eventId && decide (0 < e.availableSeats))
    (fun e => { e with availableSeats := e.availableSeats - 1 })
    db.events
  ({ db with events := r.1 }, r.2)

/-- `UPDATE events SET available_seats = available_seats + 1 WHERE id = ?`
(the unconditional increment in `CancelRegistration`). -/
def incrementSeatsWhereId (db : DB) (eventId : Nat) : DB × Nat :=
  let r := sqlUpdateEvents
    (fun e => e.id == eventId)
    (fun e => { e with availableSeats := e.availableSeats + 1 })
    db.events
  ({ db with events := r.1 }, r.2)

/-- `eventRepository.DecreaseAvailableSeats` (event_repository.go 89-105):
run the conditional decrement; if `RowsAffected == 0` return
`ErrEventFull`, else `nil`. -/
def decreaseAvailableSeats (db : DB) (eventId : Nat) : Option AppError × DB :=
  let r := decrementSeatsWherePositive db eventId
  if r.2 == 0 then (some .eventFull, r.1) else (none, r.1)

/-- `INSERT INTO registrations ... ON CONFLICT DO NOTHING` under the
`unique(user_id, event_id)` constraint the model documents: if a live row
for the pair exists the insert inserts nothing and reports no error,
otherwise it inserts the row with the next primary key. -/
def insertRegistrationOnConflict (db : DB) (userId eventId : Nat) : DB :=
  match db.findRegistration userId eventId with
  | some _ => db
  | none =>
    { db with
      registrations := db.registrations ++ [⟨db.nextRegId, userId, eventId⟩],
      nextRegId := db.nextRegId + 1 }

/-- `DELETE FROM registrations WHERE user_id = ? AND event_id = ?`
(soft delete: the row leaves the live set). -/
def deleteRegistrationWhere (db : DB) (userId eventId : Nat) : DB :=
  { db with registrations :=
      db.registrations.filter (fun r => !(r.userId == userId && r.eventId == eventId)) }

/-- Outcome of `RegisterForEvent`: the returned registration, or the error. -/
inductive RegOutcome where
  | registered (r : Registration)
  | failed (e : AppError)
  deriving Repr, DecidableEq

/-- Lines 121-148 of registration_service.go: the insert with
`ON CONFLICT DO NOTHING` followed by the conditional seat decrement;
`RowsAffected == 0` rolls the transaction back and yields `ErrEventFull`. -/
def insertAndDecrement (db : DB) (userId eventId : Nat) : Option AppError × DB :=
  let tx1 := insertRegistrationOnConflict db userId eventId
  let r := decrementSeatsWherePositive tx1 eventId
  if r.2 == 0 then (some .eventFull, db) else (none, r.1)

/-- `registrationService.RegisterForEvent` (registration_service.go 70-158):
validate the user, open a transaction, check for a duplicate registration,
read the event under `SELECT ... FOR UPDATE`, check availability, insert
the registration, conditionally decrement the seats, commit.  Every error
path rolls the transaction back (the state component returns to the
pre-call state). -/
def registerForEvent (db : DB) (userId eventId : Nat) : RegOutcome × DB :=
  if db.findUser userId then
    match db.findRegistration userId eventId with
    | some _ => (.failed .alreadyRegistered, db)
    | none =>
      match db.findEvent eventId with
      | none => (.failed .eventNotFound, db)
      | some event =>
        if event.availableSeats ≤ 0 then (.failed .eventFull, db)
        else
          match insertAndDecrement db userId eventId with
          | (some err, db2) => (.failed err, db2)
          | (none, db2) => (.registered ⟨db.nextRegId, userId, eventId⟩, db2)
  else (.failed .userNotFound, db)

/-- `registrationService.CancelRegistration` (registration_service.go
176-198): delete the live registration for the pair (no error if none
matched), then unconditionally increment the event's available seats
(`RowsAffected` is not inspected), then commit. -/
def cancelRegistration (db : DB) (userId eventId : Nat) : Option AppError × DB :=
  let tx1 := deleteRegistrationWhere db userId eventId
  let r := incrementSeatsWhereId tx1 eventId
  (none, r.1)

/-- `eventService.CreateEvent` (event_service.go 28-32): available seats
are set to the capacity on creation, then the row is inserted. -/
def createEvent (db : DB) (id : Nat) (capacity : Int) : DB :=
  { db with events := db.events ++ [{ id := id, capacity := capacity, availableSeats := capacity }] }

/-- HTTP statuses produced by the handlers. -/
inductive HttpStatus where
  | ok
  | created
  | badRequest
  | notFound
  | conflict
  | internalError
  deriving Repr, DecidableEq

/-- `EventHandler.CreateEvent` (event_handler.go 26-48): reject a
non-positive capacity, set available seats to the capacity, create. -/
def createEventHandler (db : DB) (id : Nat) (reqCapacity : Int) : HttpStatus × DB :=
  if reqCapacity ≤ 0 then (.badRequest, db)
  else (.created, createEvent db id reqCapacity)

/-- GORM `Save`: update the row with this primary key, or insert it if absent. -/
def saveEvent (db : DB) (ev : Event) : DB :=
  if (db.events.find? (fun e => e.id == ev.id)).isSome then
    { db with events := (sqlUpdateEvents (fun e => e.id == ev.id) (fun _ => ev) db.events).1 }
  else { db with events := db.events ++ [ev] }

/-- `EventHandler.UpdateEvent` (event_handler.go 100-139): fetch the
existing event (404 if absent); if the request reduces the capacity,
recompute available seats from the registration count (reject a capacity
below it); otherwise save the request body as-is, including its
`available_seats` field. -/
def updateEventHandler (db : DB) (id : Nat) (reqCapacity reqAvailableSeats : Int) :
    HttpStatus × DB :=
  match db.findEvent id with
  | none => (.notFound, db)
  | some existing =>
    if reqCapacity < existing.capacity then
      let registrationsCount := existing.capacity - existing.availableSeats
      if reqCapacity < registrationsCount then (.badRequest, db)
      else
        (.ok, saveEvent db
          { id := id, capacity := reqCapacity,
            availableSeats := reqCapacity - registrationsCount })
    else
      (.ok, saveEvent db
        { id := id, capacity := reqCapacity, availableSeats := reqAvailableSeats })

/-- Run a batch of `register` calls for one event, one per user, in the
serialization order imposed by the exclusive row lock. -/
def runRegistrations (eventId : Nat) : DB → List Nat → List RegOutcome × DB
  | db, [] => ([], db)
  | db, u :: rest =>
    let r := registerForEvent db u eventId
    let rs := runRegistrations eventId r.2 rest
    (r.1 :: rs.1, rs.2)

/-- Did the call return `Registered`. -/
def isRegistered : RegOutcome → Bool
  | .registered _ => true
  | .failed _ => false

/-- Did the call return `ErrEventFull`. -/
def isEventFull : RegOutcome → Bool
  | .failed .eventFull => true
  | _ => false

/-- The core counting invariant: for every event,
`capacity - available_seats` equals the number of live registrations. -/
def seatCountInvariant (db : DB) : Bool :=
  db.events.all (fun e => e.capacity - e.availableSeats == (db.liveRegCount e.id : Int))

/-- The Seat Ledger range invariant: `0 ≤ available_seats ≤ capacity`. -/
def ledgerRangeInvariant (db : DB) : Bool :=
  db.events.all (fun e => decide (0 ≤ e.availableSeats) && decide (e.availableSeats ≤ e.capacity))

/-! ### Helper lemmas about the row-level UPDATE model -/

/-- An UPDATE whose predicate matches no row leaves the table unchanged
and affects zero rows. -/
theorem sqlUpdateEvents_of_all_neg (p : Event → Bool) (u : Event → Event)
    (l : List Event) (h : ∀ e ∈ l, p e = false) :
    sqlUpdateEvents p u l = (l, 0) := by
  induction l with
  | nil => rfl
  | cons e rest ih =>
    have he := h e (List.mem_cons_self e rest)
    simp only [sqlUpdateEvents, ih (fun x hx => h x (List.mem_cons_of_mem e hx)), he,
      Bool.false_eq_true, if_false]

/-- A keyed UPDATE on a table with pairwise-distinct ids whose guard
holds at the keyed row: exactly that row is rewritten and exactly one
row is affected. -/
theorem sqlUpdateEvents_eq_map (c : Event → Bool) (u : Event → Event)
    (eid : Nat) (l : List Event) (hnd : (l.map Event.id).Nodup)
    (e : Event) (hf : l.find? (fun x => x.id == eid) = some e) (hc : c e = true) :
    sqlUpdateEvents (fun x => x.id == eid && c x) u l
      = (l.map (fun x => if x.id == eid then u x else x), 1) := by
  induction l with
  | nil => simp at hf
  | cons a rest ih =>
    rw [List.map_cons, List.nodup_cons] at hnd
    by_cases ha : (a.id == eid) = true
    · rw [List.find?_cons_of_pos rest ha] at hf
      have hae : a = e := by injection hf
      have haid : a.id = eid := by simpa using ha
      have hrest : ∀ x ∈ rest, ((x.id == eid && c x) : Bool) = false := by
        intro x hx
        have hxid : x.id ≠ eid := by
          intro hxe
          exact hnd.1 (by rw [haid, ← hxe]; exact List.mem_map_of_mem Event.id hx)
        simp [hxid]
      have hmap : rest.map (fun x => if x.id == eid then u x else x) = rest := by
        have : rest.map (fun x => if x.id == eid then u x else x) = rest.map id := by
          apply List.map_congr_left
          intro x hx
          have hxid : x.id ≠ eid := by
            intro hxe
            exact hnd.1 (by rw [haid, ← hxe]; exact List.mem_map_of_mem Event.id hx)
          simp [hxid]
        rw [this, List.map_id]
      have heid : e.id = eid := by rw [← hae]; exact haid
      simp only [sqlUpdateEvents, sqlUpdateEvents_of_all_neg _ u rest hrest,
        List.map_cons, if_pos ha, hmap, hae]
      simp [heid, hc]
    · rw [List.find?_cons_of_neg rest ha] at hf
      have hres := ih hnd.2 hf
      simp only [sqlUpdateEvents, hres, List.map_cons, if_neg ha]
      simp [ha]

/-- A keyed UPDATE whose guard fails at the keyed row affects no rows. -/
theorem sqlUpdateEvents_guard_false (c : Event → Bool) (u : Event → Event)
    (eid : Nat) (l : List Event) (hnd : (l.map Event.id).Nodup)
    (e : Event) (hf : l.find? (fun x => x.id == eid) = some e) (hc : c e = false) :
    sqlUpdateEvents (fun x => x.id == eid && c x) u l = (l, 0) := by
  apply sqlUpdateEvents_of_all_neg
  intro x hx
  by_cases hid : (x.id == eid) = true
  · have hxe : x = e := by
      apply List.inj_on_of_nodup_map hnd hx (List.mem_of_find?_eq_some hf)
      have h2 : e.id = eid := by
        have h0 := List.find?_some hf
        simpa using h0
      have h1 : x.id = eid := by simpa using hid
      rw [h1, h2]
    subst hxe
    simp [hc]
  · simp [Bool.eq_false_iff.mpr hid]

/-- Looking the keyed row up after a keyed id-preserving UPDATE returns
the rewritten row. -/
theorem find?_map_keyed (l : List Event) (eid : Nat) (e : Event) (u : Event → Event)
    (hid : ∀ x, (u x).id = x.id)
    (hf : l.find? (fun x => x.id == eid) = some e) :
    (l.map (fun x => if x.id == eid then u x else x)).find? (fun x => x.id == eid)
      = some (u e) := by
  induction l with
  | nil => simp at hf
  | cons a rest ih =>
    by_cases ha : (a.id == eid) = true
    · rw [List.find?_cons_of_pos rest ha] at hf
      have hae : a = e := by injection hf
      simp only [List.map_cons, if_pos ha]
      rw [hae]
      exact List.find?_cons_of_pos _ (by simp only [hid]; exact hae ▸ ha)
    · rw [List.find?_cons_of_neg rest ha] at hf
      simp only [List.map_cons, if_neg ha]
      rw [@List.find?_cons_of_neg Event (fun x => x.id == eid) a
        (List.map (fun x => if x.id == eid then u x else x) rest) ha]
      exact ih hf

/-- A keyed id-preserving UPDATE leaves the id column unchanged. -/
theorem map_id_keyed (l : List Event) (eid : Nat) (u : Event → Event)
    (hid : ∀ x, (u x).id = x.id) :
    (l.map (fun x => if x.id == eid then u x else x)).map Event.id = l.map Event.id := by
  rw [List.map_map]
  apply List.map_congr_left
  intro a _
  by_cases ha : (a.id == eid) = true <;> simp [Function.comp, ha, hid]

/-- `find?` skips a prefix in which it finds nothing. -/
theorem find?_append_of_none {α : Type} (p : α → Bool) (l1 l2 : List α)
    (h : l1.find? p = none) : (l1 ++ l2).find? p = l2.find? p := by
  rw [List.find?_append, h, Option.none_or]

/-! ### Step lemmas for the registration transaction -/

/-- With no duplicate registration and a positive seat count at the
locked row, the insert-and-decrement suffix of the transaction appends
the registration row and decrements exactly the target event. -/
theorem insertAndDecrement_success (db : DB) (u eid : Nat) (e : Event)
    (hnd : (db.events.map Event.id).Nodup)
    (hnoreg : db.findRegistration u eid = none)
    (hev : db.findEvent eid = some e)
    (hpos : 0 < e.availableSeats) :
    insertAndDecrement db u eid =
      (none,
       { db with
         events := db.events.map (fun x =>
           if x.id == eid then { x with availableSeats := x.availableSeats - 1 } else x),
         registrations := db.registrations ++ [⟨db.nextRegId, u, eid⟩],
         nextRegId := db.nextRegId + 1 }) := by
  have hkey := sqlUpdateEvents_eq_map (fun x => decide (0 < x.availableSeats))
    (fun x => { x with availableSeats := x.availableSeats - 1 }) eid db.events hnd e hev
    (by simpa using hpos)
  unfold insertAndDecrement insertRegistrationOnConflict decrementSeatsWherePositive
  rw [hnoreg]
  dsimp only
  rw [hkey]
  simp

/-- A successful `RegisterForEvent` call: outcome `Registered`, one new
registration row, the event's seats decremented by one. -/
theorem registerForEvent_success (db : DB) (u eid : Nat) (e : Event)
    (hnd : (db.events.map Event.id).Nodup)
    (hu : db.findUser u = true)
    (hnoreg : db.findRegistration u eid = none)
    (hev : db.findEvent eid = some e)
    (hpos : 0 < e.availableSeats) :
    registerForEvent db u eid =
      (.registered ⟨db.nextRegId, u, eid⟩,
       { db with
         events := db.events.map (fun x =>
           if x.id == eid then { x with availableSeats := x.availableSeats - 1 } else x),
         registrations := db.registrations ++ [⟨db.nextRegId, u, eid⟩],
         nextRegId := db.nextRegId + 1 }) := by
  unfold registerForEvent
  rw [hu, hnoreg, hev, insertAndDecrement_success db u eid e hnd hnoreg hev hpos]
  simp [not_le.mpr hpos]

/-- A `RegisterForEvent` call that reaches the availability check with no
seats left: outcome `ErrEventFull`, state rolled back. -/
theorem registerForEvent_full (db : DB) (u eid : Nat) (e : Event)
    (hu : db.findUser u = true)
    (hnoreg : db.findRegistration u eid = none)
    (hev : db.findEvent eid = some e)
    (hle : e.availableSeats ≤ 0) :
    registerForEvent db u eid = (.failed .eventFull, db) := by
  unfold registerForEvent
  rw [hu, hnoreg, hev]
  simp [hle]

/-- When the insert-and-decrement suffix reports an error, its state
component is the rolled-back pre-transaction state. -/
theorem insertAndDecrement_err_frame (db : DB) (u eid : Nat) (err : AppError) (db2 : DB)
    (h : insertAndDecrement db u eid = (some err, db2)) : db2 = db := by
  unfold insertAndDecrement at h
  dsimp only at h
  split at h
  · rw [Prod.mk.injEq] at h
    exact h.2.symm
  · rw [Prod.mk.injEq] at h
    exact absurd h.1 (by simp)

/-- Batch characterization of the serialized registration protocol: with
pairwise-distinct, existing, not-yet-registered users and the event
present holding `a ≥ 0` seats, the batch admits `min N a.toNat` users
with `Registered`, rejects the remaining ones with `EventFull`, produces
no other outcome, and leaves exactly `a - min N a.toNat` seats. -/
theorem runRegistrations_spec (eid : Nat) (users : List Nat) :
    ∀ (db : DB) (cap a : Int),
      (db.events.map Event.id).Nodup →
      db.findEvent eid = some ⟨eid, cap, a⟩ →
      0 ≤ a →
      users.Nodup →
      (∀ u ∈ users, db.findUser u = true) →
      (∀ u ∈ users, db.findRegistration u eid = none) →
      ((runRegistrations eid db users).1.countP isRegistered
          = min users.length a.toNat ∧
       (runRegistrations eid db users).1.countP isEventFull
          = users.length - min users.length a.toNat ∧
       (∀ o ∈ (runRegistrations eid db users).1,
          isRegistered o = true ∨ isEventFull o = true) ∧
       (runRegistrations eid db users).2.findEvent eid
          = some ⟨eid, cap, a - (min users.length a.toNat : Int)⟩) := by
  induction users with
  | nil =>
    intro db cap a hnd hev ha hnodup husers hnoreg
    refine ⟨by simp [runRegistrations], by simp [runRegistrations], ?_, ?_⟩
    · intro o ho
      simp [runRegistrations] at ho
    · simpa [runRegistrations] using hev
  | cons u rest ih =>
    intro db cap a hnd hev ha hnodup husers hnoreg
    rw [List.nodup_cons] at hnodup
    rcases lt_or_le 0 a with hpos | hle
    · -- seats remain: this call succeeds and charges one seat
      have hstep := registerForEvent_success db u eid ⟨eid, cap, a⟩ hnd
        (husers u (List.mem_cons_self u rest))
        (hnoreg u (List.mem_cons_self u rest)) hev hpos
      have hnd1 : ((registerForEvent db u eid).2.events.map Event.id).Nodup := by
        rw [hstep]
        dsimp only
        rw [map_id_keyed db.events eid
          (fun x => { x with availableSeats := x.availableSeats - 1 }) (fun x => rfl)]
        exact hnd
      have hev1 : (registerForEvent db u eid).2.findEvent eid
          = some ⟨eid, cap, a - 1⟩ := by
        rw [hstep]
        show (db.events.map (fun x =>
            if x.id == eid then { x with availableSeats := x.availableSeats - 1 } else x)).find?
            (fun x => x.id == eid) = some ⟨eid, cap, a - 1⟩
        rw [find?_map_keyed db.events eid (⟨eid, cap, a⟩ : Event)
          (fun x => { x with availableSeats := x.availableSeats - 1 }) (fun x => rfl) hev]
      have ha1 : (0 : Int) ≤ a - 1 := by omega
      have husers1 : ∀ v ∈ rest, (registerForEvent db u eid).2.findUser v = true := by
        intro v hv
        rw [hstep]
        exact husers v (List.mem_cons_of_mem u hv)
      have hnoreg1 : ∀ v ∈ rest,
          (registerForEvent db u eid).2.findRegistration v eid = none := by
        intro v hv
        rw [hstep]
        show (db.registrations ++ [(⟨db.nextRegId, u, eid⟩ : Registration)]).find?
          (fun r => r.userId == v && r.eventId == eid) = none
        rw [find?_append_of_none _ _ _ (hnoreg v (List.mem_cons_of_mem u hv))]
        have hvu : u ≠ v := fun hu => hnodup.1 (hu ▸ hv)
        have hbeq : (u == v) = false := by simpa using hvu
        simp [List.find?, hbeq]
      have hrest := ih (registerForEvent db u eid).2 cap (a - 1)
        hnd1 hev1 ha1 hnodup.2 husers1 hnoreg1
      have htn : a.toNat = (a - 1).toNat + 1 := by omega
      refine ⟨?_, ?_, ?_, ?_⟩
      · simp only [runRegistrations]
        rw [List.countP_cons_of_pos isRegistered _ (by rw [hstep]; rfl)]
        rw [hrest.1]
        simp only [List.length_cons, htn]
        omega
      · simp only [runRegistrations]
        rw [List.countP_cons_of_neg isEventFull _ (by rw [hstep]; simp [isEventFull])]
        rw [hrest.2.1]
        simp only [List.length_cons, htn]
        omega
      · intro o ho
        simp only [runRegistrations, List.mem_cons] at ho
        rcases ho with ho | ho
        · left; rw [ho, hstep]; rfl
        · exact hrest.2.2.1 o ho
      · simp only [runRegistrations]
        rw [hrest.2.2.2]
        simp only [Option.some.injEq, Event.mk.injEq, List.length_cons, true_and]
        omega
    · -- no seats remain: this call fails with EventFull and changes nothing
      have hzero : a = 0 := le_antisymm hle ha
      have hstep := registerForEvent_full db u eid ⟨eid, cap, a⟩
        (husers u (List.mem_cons_self u rest))
        (hnoreg u (List.mem_cons_self u rest)) hev (by simpa using hle)
      have hrest := ih db cap a hnd hev ha hnodup.2
        (fun v hv => husers v (List.mem_cons_of_mem u hv))
        (fun v hv => hnoreg v (List.mem_cons_of_mem u hv))
      have htn : a.toNat = 0 := by omega
      refine ⟨?_, ?_, ?_, ?_⟩
      · simp only [runRegistrations, hstep]
        rw [List.countP_cons_of_neg isRegistered _ (by simp [isRegistered])]
        rw [hrest.1]
        simp [htn]
      · simp only [runRegistrations, hstep]
        rw [List.countP_cons_of_pos isEventFull _ (by rfl)]
        rw [hrest.2.1]
        simp [htn]
      · intro o ho
        simp only [runRegistrations, hstep, List.mem_cons] at ho
        rcases ho with ho | ho
        · right; rw [ho]; rfl
        · exact hrest.2.2.1 o ho
      · simp only [runRegistrations, hstep]
        rw [hrest.2.2.2]
        simp only [Option.some.injEq, Event.mk.injEq, List.length_cons, true_and]
        omega

/-! ### Claim theorems -/

/-- C1: for a fresh event of capacity `C` and `N > C` register calls by
`N` distinct existing users — serialized in lock-acquisition order by the
event row lock — exactly `C` calls return Registered, exactly `N - C`
return EventFull, no call returns any other outcome, and the event's
final `available_seats` is `0`. -/
theorem c1_concurrent_batch_admits_capacity (db : DB) (eid cap : Nat) (users : List Nat)
    (hnd : (db.events.map Event.id).Nodup)
    (hev : db.findEvent eid = some ⟨eid, (cap : Int), (cap : Int)⟩)
    (hfresh : db.liveRegCount eid = 0)
    (husers : ∀ u ∈ users, db.findUser u = true)
    (hnodup : users.Nodup)
    (hN : cap < users.length) :
    (runRegistrations eid db users).1.countP isRegistered = cap ∧
    (runRegistrations eid db users).1.countP isEventFull = users.length - cap ∧
    (∀ o ∈ (runRegistrations eid db users).1,
        isRegistered o = true ∨ isEventFull o = true) ∧
    (runRegistrations eid db users).2.findEvent eid = some ⟨eid, (cap : Int), 0⟩ := by
  have hnoreg : ∀ u ∈ users, db.findRegistration u eid = none := by
    intro u hu
    show db.registrations.find? (fun r => r.userId == u && r.eventId == eid) = none
    rw [List.find?_eq_none]
    intro r hr
    have hne := List.countP_eq_zero.mp hfresh r hr
    simp only [Bool.and_eq_true, not_and]
    intro _
    exact hne
  obtain ⟨h1, h2, h3, h4⟩ := runRegistrations_spec eid users db (cap : Int) (cap : Int)
    hnd hev (Int.natCast_nonneg cap) hnodup husers hnoreg
  refine ⟨?_, ?_, h3, ?_⟩
  · rw [h1]; omega
  · rw [h2]; omega
  · rw [h4]
    simp only [Option.some.injEq, Event.mk.injEq, true_and]
    omega

/-- C1 witness: capacity 1, two distinct existing users: one Registered,
one EventFull, no other outcome, zero seats left. -/
theorem c1_witness :
    (runRegistrations 1 ⟨[1, 2], [⟨1, 1, 1⟩], [], 1⟩ [1, 2]).1.countP isRegistered = 1 ∧
    (runRegistrations 1 ⟨[1, 2], [⟨1, 1, 1⟩], [], 1⟩ [1, 2]).1.countP isEventFull = 2 - 1 ∧
    (∀ o ∈ (runRegistrations 1 ⟨[1, 2], [⟨1, 1, 1⟩], [], 1⟩ [1, 2]).1,
        isRegistered o = true ∨ isEventFull o = true) ∧
    (runRegistrations 1 ⟨[1, 2], [⟨1, 1, 1⟩], [], 1⟩ [1, 2]).2.findEvent 1
      = some ⟨1, ((1 : Nat) : Int), 0⟩ :=
  c1_concurrent_batch_admits_capacity ⟨[1, 2], [⟨1, 1, 1⟩], [], 1⟩ 1 1 [1, 2]
    (by decide) (by decide) (by decide) (by decide) (by decide) (by decide)

/-- C5: the conditional decrement decrements the event's
`available_seats` by exactly 1 if and only if it is positive at write
time; when it affects zero rows it fails with `ErrEventFull`
(SeatsExhausted), which is distinct from `ErrEventNotFound`, and it
fails exactly when no seats are available at the attempted decrement. -/
theorem c5_reserve_conditional_decrement (db : DB) (eid : Nat) (e : Event)
    (hnd : (db.events.map Event.id).Nodup)
    (hev : db.findEvent eid = some e) :
    (0 < e.availableSeats →
        decreaseAvailableSeats db eid =
          (none, { db with events := db.events.map (fun x =>
            if x.id == eid then { x with availableSeats := x.availableSeats - 1 } else x) }) ∧
        (decreaseAvailableSeats db eid).2.findEvent eid
          = some { e with availableSeats := e.availableSeats - 1 }) ∧
    (e.availableSeats ≤ 0 →
        decreaseAvailableSeats db eid = (some .eventFull, db)) ∧
    ((decreaseAvailableSeats db eid).1 = some AppError.eventFull ↔ e.availableSeats ≤ 0) ∧
    AppError.eventFull ≠ AppError.eventNotFound := by
  have hsucc : 0 < e.availableSeats →
      decreaseAvailableSeats db eid =
        (none, { db with events := db.events.map (fun x =>
          if x.id == eid then { x with availableSeats := x.availableSeats - 1 } else x) }) := by
    intro hpos
    have hkey := sqlUpdateEvents_eq_map (fun x => decide (0 < x.availableSeats))
      (fun x => { x with availableSeats := x.availableSeats - 1 }) eid db.events hnd e hev
      (by simpa using hpos)
    unfold decreaseAvailableSeats decrementSeatsWherePositive
    dsimp only
    rw [hkey]
    simp
  have hfail : e.availableSeats ≤ 0 →
      decreaseAvailableSeats db eid = (some .eventFull, db) := by
    intro hle
    have hkey := sqlUpdateEvents_guard_false (fun x => decide (0 < x.availableSeats))
      (fun x => { x with availableSeats := x.availableSeats - 1 }) eid db.events hnd e hev
      (by simpa using hle)
    unfold decreaseAvailableSeats decrementSeatsWherePositive
    dsimp only
    rw [hkey]
    simp
  refine ⟨fun hpos => ⟨hsucc hpos, ?_⟩, hfail, ⟨?_, ?_⟩, by simp⟩
  · rw [hsucc hpos]
    show (db.events.map (fun x =>
        if x.id == eid then { x with availableSeats := x.availableSeats - 1 } else x)).find?
        (fun x => x.id == eid) = some { e with availableSeats := e.availableSeats - 1 }
    rw [find?_map_keyed db.events eid e
      (fun x => { x with availableSeats := x.availableSeats - 1 }) (fun x => rfl) hev]
  · intro h1
    rcases le_or_lt e.availableSeats 0 with hle | hpos
    · exact hle
    · rw [hsucc hpos] at h1
      exact absurd h1 (by simp)
  · intro hle
    rw [hfail hle]

/-- C5 witness: with 2 seats the decrement succeeds and leaves 1 seat;
with 0 seats it affects zero rows and fails with `ErrEventFull`. -/
theorem c5_witness :
    decreaseAvailableSeats ⟨[], [⟨1, 2, 2⟩], [], 1⟩ 1
      = (none, ⟨[], [⟨1, 2, 1⟩], [], 1⟩) ∧
    decreaseAvailableSeats ⟨[], [⟨1, 2, 0⟩], [], 1⟩ 1
      = (some AppError.eventFull, ⟨[], [⟨1, 2, 0⟩], [], 1⟩) := by
  constructor
  · have h := ((c5_reserve_conditional_decrement ⟨[], [⟨1, 2, 2⟩], [], 1⟩ 1 ⟨1, 2, 2⟩
      (by decide) (by decide)).1 (by decide)).1
    rw [h]
    rfl
  · exact (c5_reserve_conditional_decrement ⟨[], [⟨1, 2, 0⟩], [], 1⟩ 1 ⟨1, 2, 0⟩
      (by decide) (by decide)).2.1 (by decide)

/-- C7: registering the same user twice in sequence yields `Registered`
then `ErrAlreadyRegistered`, with `available_seats` decremented exactly
once across the two calls (the second call leaves the state unchanged). -/
theorem c7_register_twice (db : DB) (u eid : Nat) (e : Event)
    (hnd : (db.events.map Event.id).Nodup)
    (hu : db.findUser u = true)
    (hnoreg : db.findRegistration u eid = none)
    (hev : db.findEvent eid = some e)
    (hpos : 0 < e.availableSeats) :
    ∃ db1 : DB,
      registerForEvent db u eid = (.registered ⟨db.nextRegId, u, eid⟩, db1) ∧
      db1.findEvent eid = some { e with availableSeats := e.availableSeats - 1 } ∧
      registerForEvent db1 u eid = (.failed .alreadyRegistered, db1) := by
  refine ⟨_, registerForEvent_success db u eid e hnd hu hnoreg hev hpos, ?_, ?_⟩
  · show (db.events.map (fun x =>
        if x.id == eid then { x with availableSeats := x.availableSeats - 1 } else x)).find?
        (fun x => x.id == eid) = some { e with availableSeats := e.availableSeats - 1 }
    rw [find?_map_keyed db.events eid e
      (fun x => { x with availableSeats := x.availableSeats - 1 }) (fun x => rfl) hev]
  · have hfound : DB.findRegistration
        { db with
          events := db.events.map (fun x =>
            if x.id == eid then { x with availableSeats := x.availableSeats - 1 } else x),
          registrations := db.registrations ++ [⟨db.nextRegId, u, eid⟩],
          nextRegId := db.nextRegId + 1 } u eid
        = some ⟨db.nextRegId, u, eid⟩ := by
      show (db.registrations ++ [(⟨db.nextRegId, u, eid⟩ : Registration)]).find?
        (fun r => r.userId == u && r.eventId == eid) = some ⟨db.nextRegId, u, eid⟩
      rw [find?_append_of_none _ _ _ hnoreg]
      simp [List.find?]
    have hu1 : DB.findUser
        { db with
          events := db.events.map (fun x =>
            if x.id == eid then { x with availableSeats := x.availableSeats - 1 } else x),
          registrations := db.registrations ++ [⟨db.nextRegId, u, eid⟩],
          nextRegId := db.nextRegId + 1 } u = true := hu
    unfold registerForEvent
    rw [hu1, hfound]
    rfl

/-- C7 witness: one user, capacity 3: first call Registered, second call
AlreadyRegistered with one seat consumed in total. -/
theorem c7_witness :
    ∃ db1 : DB,
      registerForEvent ⟨[7], [⟨1, 3, 3⟩], [], 1⟩ 7 1 = (.registered ⟨1, 7, 1⟩, db1) ∧
      db1.findEvent 1 = some ⟨1, 3, 2⟩ ∧
      registerForEvent db1 7 1 = (.failed .alreadyRegistered, db1) :=
  c7_register_twice ⟨[7], [⟨1, 3, 3⟩], [], 1⟩ 7 1 ⟨1, 3, 3⟩
    (by decide) (by decide) (by decide) (by decide) (by decide)

/-- C8: every `RegisterForEvent` call that returns an error outcome
leaves the datastore state exactly as it was: each error path either
touches no state or rolls the transaction back before returning. -/
theorem c8_register_error_rolls_back (db : DB) (u eid : Nat) (err : AppError)
    (h : (registerForEvent db u eid).1 = RegOutcome.failed err) :
    (registerForEvent db u eid).2 = db := by
  unfold registerForEvent at h ⊢
  cases hu : db.findUser u with
  | false => simp [hu]
  | true =>
    simp only [hu, if_true] at h ⊢
    cases hreg : db.findRegistration u eid with
    | some r => simp [hreg]
    | none =>
      simp only [hreg] at h ⊢
      cases hev2 : db.findEvent eid with
      | none => simp [hev2]
      | some ev =>
        simp only [hev2] at h ⊢
        by_cases hle : ev.availableSeats ≤ 0
        · simp [hle]
        · simp only [if_neg hle] at h ⊢
          rcases hx : insertAndDecrement db u eid with ⟨o, db2⟩
          cases o with
          | some err2 =>
            simp only [hx] at h ⊢
            exact insertAndDecrement_err_frame db u eid err2 db2 hx
          | none =>
            rw [hx] at h
            simp at h

/-- C8 witness: a register call on an empty store fails with
UserNotFound and leaves the store unchanged. -/
theorem c8_witness :
    (registerForEvent ⟨[], [], [], 1⟩ 1 1).1 = RegOutcome.failed AppError.userNotFound ∧
    (registerForEvent ⟨[], [], [], 1⟩ 1 1).2 = (⟨[], [], [], 1⟩ : DB) :=
  ⟨by decide,
   c8_register_error_rolls_back ⟨[], [], [], 1⟩ 1 1 AppError.userNotFound (by decide)⟩

/-- C10: `CancelRegistration` returns success (nil error) on every input
— it never returns a NotFound or Conflict outcome — and when the event
does not exist the seat-increment update matches zero rows, so the
events table is left unchanged. -/
theorem c10_cancel_success_even_without_event (db : DB) (u eid : Nat) :
    (cancelRegistration db u eid).1 = none ∧
    (db.findEvent eid = none → (cancelRegistration db u eid).2.events = db.events) := by
  constructor
  · rfl
  · intro h
    have hall : ∀ e ∈ db.events, ((e.id == eid) : Bool) = false := by
      intro e he
      have hne := List.find?_eq_none.mp h e he
      simpa using hne
    show (sqlUpdateEvents (fun e => e.id == eid)
      (fun e => { e with availableSeats := e.availableSeats + 1 })
      (deleteRegistrationWhere db u eid).events).1 = db.events
    rw [show (deleteRegistrationWhere db u eid).events = db.events from rfl]
    rw [sqlUpdateEvents_of_all_neg _ _ _ hall]

/-- C10 witness: cancelling against a store whose only event has a
different id succeeds and leaves the events table unchanged. -/
theorem c10_witness :
    (cancelRegistration ⟨[1], [⟨2, 3, 3⟩], [], 1⟩ 1 1).1 = none ∧
    (cancelRegistration ⟨[1], [⟨2, 3, 3⟩], [], 1⟩ 1 1).2.events = [⟨2, 3, 3⟩] := by
  have h := c10_cancel_success_even_without_event ⟨[1], [⟨2, 3, 3⟩], [], 1⟩ 1 1
  exact ⟨h.1, h.2 (by decide)⟩

/-- C2 fails on the code: cancelling a pair that was never registered
still increments `available_seats`, so the counting invariant
`capacity - available_seats = live registrations` that held before the
call is violated after it (capacity 5, seats go 5 → 6, zero live
registrations). -/
theorem c2_cancel_unregistered_breaks_count :
    seatCountInvariant ⟨[1], [⟨1, 5, 5⟩], [], 1⟩ = true ∧
    (cancelRegistration ⟨[1], [⟨1, 5, 5⟩], [], 1⟩ 1 1).1 = none ∧
    seatCountInvariant (cancelRegistration ⟨[1], [⟨1, 5, 5⟩], [], 1⟩ 1 1).2 = false := by
  decide

/-- C3 fails on the code: the unconditional increment in
`CancelRegistration` raises `available_seats` above `capacity` when the
pair has no live registration (capacity 5, seats 5 → 6), violating the
Seat Ledger range invariant. -/
theorem c3_cancel_raises_seats_above_capacity :
    ledgerRangeInvariant ⟨[1], [⟨1, 5, 5⟩], [], 1⟩ = true ∧
    (cancelRegistration ⟨[1], [⟨1, 5, 5⟩], [], 1⟩ 1 1).2.findEvent 1 = some ⟨1, 5, 6⟩ ∧
    ledgerRangeInvariant (cancelRegistration ⟨[1], [⟨1, 5, 5⟩], [], 1⟩ 1 1).2 = false := by
  decide

/-- C4 fails on the code: cancel on a pair with no live registration
returns success but is not a no-op — it increments the event's
`available_seats` from 5 to 6. -/
theorem c4_cancel_unregistered_not_noop :
    DB.findRegistration ⟨[1], [⟨1, 5, 5⟩], [], 1⟩ 1 1 = none ∧
    (cancelRegistration ⟨[1], [⟨1, 5, 5⟩], [], 1⟩ 1 1).1 = none ∧
    (cancelRegistration ⟨[1], [⟨1, 5, 5⟩], [], 1⟩ 1 1).2.findEvent 1 = some ⟨1, 5, 6⟩ := by
  decide

/-- C6 fails on the code: when the registration insert hits the
uniqueness conflict (a live row for the pair already exists), the
conflict is swallowed — no row is inserted and no error is raised — but
the transaction still decrements `available_seats` (4 → 3), charging a
second seat to the already-registered pair and breaking the counting
invariant. -/
theorem c6_conflict_swallowed_but_seat_still_charged :
    insertRegistrationOnConflict ⟨[1], [⟨1, 5, 4⟩], [⟨1, 1, 1⟩], 2⟩ 1 1
      = ⟨[1], [⟨1, 5, 4⟩], [⟨1, 1, 1⟩], 2⟩ ∧
    insertAndDecrement ⟨[1], [⟨1, 5, 4⟩], [⟨1, 1, 1⟩], 2⟩ 1 1
      = (none, ⟨[1], [⟨1, 5, 3⟩], [⟨1, 1, 1⟩], 2⟩) ∧
    seatCountInvariant ⟨[1], [⟨1, 5, 4⟩], [⟨1, 1, 1⟩], 2⟩ = true ∧
    seatCountInvariant ⟨[1], [⟨1, 5, 3⟩], [⟨1, 1, 1⟩], 2⟩ = false := by
  decide

/-- C9 fails on the code: creation does set `available_seats` to the
capacity, but `UpdateEvent` writes the request body's `available_seats`
directly whenever the capacity is not reduced — here an event with one
live registration (capacity 10, seats 9) is updated to capacity 20 with
request seats 3, a direct arbitrary write, not a ±1 move. -/
theorem c9_updateEvent_sets_seats_directly :
    createEventHandler ⟨[], [], [], 1⟩ 1 7 = (HttpStatus.created, ⟨[], [⟨1, 7, 7⟩], [], 1⟩) ∧
    DB.liveRegCount ⟨[1], [⟨1, 10, 9⟩], [⟨1, 1, 1⟩], 2⟩ 1 = 1 ∧
    updateEventHandler ⟨[1], [⟨1, 10, 9⟩], [⟨1, 1, 1⟩], 2⟩ 1 20 3
      = (HttpStatus.ok, ⟨[1], [⟨1, 20, 3⟩], [⟨1, 1, 1⟩], 2⟩) := by
  decide

end EventAPI
